import Mathlib

/-!
Shallow embedding of `backend/app/websocket.py`: the websocket chunk-reassembly
handler and generation-session coordinator of the bedrock chat backend.

Modelling conventions:
* The DynamoDB session table is a list of `TableItem`; `put_item` is an upsert
  keyed by `(ConnectionId, MessagePartId)`, mirroring DynamoDB semantics.
* Machine-level JSON is elided: an inbound event carries `Option BodyData`,
  where `none` stands for a body that `json.loads` rejects (the parse happens
  at websocket.py:348, before the top-level `try`).
* Python exceptions are modelled with `Except String _` / `Option _`; the
  string is the exception text `str(e)`.
* External collaborators (token verifier, conversation store, vector search,
  the Bedrock stream and the agent runner) live in an `Env` record of
  functions; invoking a generation backend is recorded as an `Effect` rather
  than interpreted, since its internals are outside this file.
* `decimal.Decimal` prices are modelled as `ℚ`.
-/

/-- One row of the websocket session DynamoDB table.  Sequence number 0 holds
the session owner (`UserId` present); part rows hold `MessagePart`. -/
structure TableItem where
  connectionId : String
  messagePartId : Int
  userId : Option String
  messagePart : Option String
  expire : Nat
  deriving DecidableEq

/-- DynamoDB `put_item`: an idempotent upsert keyed by
`(ConnectionId, MessagePartId)` (websocket.py:373, websocket.py:435). -/
def put_item (t : List TableItem) (item : TableItem) : List TableItem :=
  item :: t.filter (fun j =>
    !(j.connectionId == item.connectionId && j.messagePartId == item.messagePartId))

/-- DynamoDB `get_item` by full key; used to state table properties. -/
def get_item (t : List TableItem) (c : String) (s : Int) : Option TableItem :=
  t.find? (fun it => it.connectionId == c && it.messagePartId == s)

/-- Key ordering used by `message_parts.sort(key=lambda x: x["MessagePartId"])`
(websocket.py:417). -/
def partLE (a b : TableItem) : Prop := a.messagePartId ≤ b.messagePartId

instance : DecidableRel partLE := fun a b => inferInstanceAs (Decidable (a.messagePartId ≤ b.messagePartId))

instance : IsTotal TableItem partLE := ⟨fun a b => Int.le_total a.messagePartId b.messagePartId⟩

instance : IsTrans TableItem partLE := ⟨fun _ _ _ h1 h2 => le_trans h1 h2⟩

/-- Strict version of `partLE`, used to characterise sorted part lists with
pairwise-distinct sequence numbers. -/
def partLT (a b : TableItem) : Prop := a.messagePartId < b.messagePartId

instance : IsAntisymm TableItem partLT :=
  ⟨fun _ _ h1 h2 => absurd (lt_trans h1 h2) (lt_irrefl _)⟩

/-- Python `list.sort(key=lambda x: x["MessagePartId"])` (websocket.py:417),
modelled as a stable sort by the sequence-number key. -/
def sort_parts (l : List TableItem) : List TableItem := List.insertionSort partLE l

/-- `"".join(item["MessagePart"] for item in message_parts)` applied after the
sort (websocket.py:417-418). -/
def concat_parts (l : List TableItem) : String :=
  String.join ((sort_parts l).map (fun it => it.messagePart.getD ""))

/-- Filter of the END-step part query: same connection, sequence number at
least 1 (`Key("MessagePartId").gte(1)`, websocket.py:398-406). -/
def end_part_filter (c : String) (it : TableItem) : Bool :=
  it.connectionId == c && decide (1 ≤ it.messagePartId)

/-- Filter of the END-step owner query: same connection, `UserId` attribute
present (`FilterExpression=Attr("UserId").exists()`, websocket.py:385-388). -/
def owner_filter (c : String) (it : TableItem) : Bool :=
  it.connectionId == c && it.userId.isSome

/-- One content block of a message (`ContentModel`). -/
structure ContentModel where
  content_type : String
  body : String
  media_type : Option String
  file_name : Option String
  deriving DecidableEq

/-- A retrieved-source citation (`ChunkModel`). -/
structure ChunkModel where
  content : String
  content_type : String
  source : String
  rank : Nat
  deriving DecidableEq

/-- One node of the conversation message tree (`MessageModel`).  The agent
thinking log is kept opaque as a list of strings. -/
structure MessageModel where
  role : String
  content : List ContentModel
  model : String
  children : List String
  parent : Option String
  create_time : Nat
  feedback : Option String
  used_chunks : Option (List ChunkModel)
  thinking_log : Option (List String)
  deriving DecidableEq

/-- A conversation record (`ConversationModel`); only the fields the handler
reads or writes are modelled.  The message map is an insertion-ordered
association list, mirroring a Python dict. -/
structure ConversationModel where
  message_map : List (String × MessageModel)
  last_message_id : String
  total_price : ℚ
  should_continue : Bool
  deriving DecidableEq

/-- Python dict read `m[k]`; `none` models a `KeyError`. -/
def mapLookup {α : Type} (m : List (String × α)) (k : String) : Option α :=
  (m.find? (fun p => p.1 == k)).map (fun p => p.2)

/-- Python dict write `m[k] = v` for a key already present (in-place field
mutation of an existing entry). -/
def mapSet {α : Type} (m : List (String × α)) (k : String) (v : α) : List (String × α) :=
  m.map (fun p => if p.1 == k then (k, v) else p)

/-- Python dict write `m[k] = v`: overwrite when present, else append (dicts
preserve insertion order). -/
def mapInsert {α : Type} (m : List (String × α)) (k : String) (v : α) : List (String × α) :=
  if (m.find? (fun p => p.1 == k)).isSome then mapSet m k v else m ++ [(k, v)]

/-- The `message` member of a `ChatInput`; only its model name is read here. -/
structure MessageInput where
  model : String
  deriving DecidableEq

/-- The reassembled chat input (`ChatInput` schema), restricted to the fields
websocket.py reads. -/
structure ChatInput where
  bot_id : Option String
  continue_generate : Bool
  message : MessageInput
  deriving DecidableEq

/-- A custom bot (`BotModel`), restricted to the fields websocket.py reads.
`agent_tools` flattens `bot.agent.tools` to the declared tool names. -/
structure BotModel where
  id : String
  agent_tools : List String
  has_knowledge_base : Bool
  display_retrieved_chunks : Bool
  deriving DecidableEq

/-- Modelled from the spec: `BotModel.is_agent_enabled` is defined in
`app/repositories/models/custom_bot.py`, which is not part of the sources;
spec 4.5 and 8 state that a bot with at least one declared agent tool uses the
agent flow. -/
def BotModel.is_agent_enabled (b : BotModel) : Bool := !b.agent_tools.isEmpty

/-- Modelled from the spec: `BotModel.has_knowledge` is defined in
`app/repositories/models/custom_bot.py`, which is not part of the sources;
per spec 4.5 it reports whether the bot has a knowledge base attached. -/
def BotModel.has_knowledge (b : BotModel) : Bool := b.has_knowledge_base

/-- One ranked vector-search result (`SearchResult` of `app/vector_search`). -/
structure SearchResult where
  content : String
  source : String
  rank : Nat
  deriving DecidableEq

/-- Terminal-event payload of the plain stream (`OnStopInput` of `app/stream`). -/
structure OnStopInput where
  full_token : String
  stop_reason : String
  price : ℚ
  deriving DecidableEq

/-- Terminal-event payload of the agent runner (`OnStopInput` of
`app/agents/agent`).  `last_response_text` is
`arg.last_response["output"]["message"]["content"][0]["text"]`. -/
structure AgentOnStopInput where
  last_response_text : String
  stop_reason : String
  price : ℚ
  thinking_conversation : List String
  deriving DecidableEq

/-- A reference to one agent tool: either a declared tool resolved by
`get_tool_by_name`, or the knowledge tool built by `create_knowledge_tool`. -/
inductive ToolRef where
  | named (name : String)
  | knowledge (bot_id : String) (model : String)
  deriving DecidableEq

/-- An outbound frame posted to the websocket connection.  Payloads of the two
agent progress frames are elided: no claim concerns them. -/
inductive OutFrame where
  | streaming (completion : String)
  | agentThinking
  | agentToolResult
  | streamingEnd (stop_reason : String)
  | fetchingKnowledge
  | error (reason : String)
  deriving DecidableEq

/-- An observable side effect of the handler, in program order. -/
inductive Effect where
  | storeConversation (user_id : String) (conv : ConversationModel)
  | post (connection_id : String) (frame : OutFrame)
  | agentRun (tools : List ToolRef)
  | streamRun
  | searchDocs (bot_id : String) (query : String)
  | modifyBotLastUsed (user_id : String) (bot_id : String)
  deriving DecidableEq

/-- The HTTP-like result dict returned by the Lambda handler. -/
structure LambdaResult where
  statusCode : Nat
  body : String
  deriving DecidableEq

/-- External collaborators of websocket.py, supplied as pure functions.
`stream_result` is the outcome of `stream_handler.run` (error models a raised
exception); `new_ulid` is the fresh `str(ULID())`. -/
structure Env where
  verify_token : String → Except String String
  parse_chat_input : String → Option ChatInput
  prepare_conversation : String → ChatInput → Except Unit (String × ConversationModel × Option BotModel)
  search_related_docs : BotModel → String → List SearchResult
  filter_used_results : String → List SearchResult → List SearchResult
  get_source_link : String → String × String
  insert_knowledge : ConversationModel → List SearchResult → Bool → ConversationModel
  stream_result : Except String Unit
  new_ulid : String
  current_time : Nat

/-- Python truthiness of an optional string (`if chat_input.bot_id:`): `none`
and the empty string are falsy. -/
def truthy_str (s : Option String) : Bool := s.getD "" != ""

/-- `on_stream` (websocket.py:42-47): forward one token as a STREAMING frame. -/
def on_stream (token : String) (connection_id : String) : List Effect :=
  [Effect.post connection_id (OutFrame.streaming token)]

/-- The message-tree mutation of `on_stop` (websocket.py:61-104): either the
continuation append or the creation and linking of a new assistant message.
Returns `none` when the Python code would raise (missing map key or empty
content list). -/
def on_stop_update (env : Env) (arg : OnStopInput)
    (conversation : ConversationModel) (chat_input : ChatInput) (user_msg_id : String)
    (bot : Option BotModel) (search_results : List SearchResult) :
    Option ConversationModel :=
  if chat_input.continue_generate then
      -- conversation.message_map[conversation.last_message_id].content[0].body += arg.full_token
      match mapLookup conversation.message_map conversation.last_message_id with
      | none => none
      | some msg =>
        match msg.content with
        | [] => none
        | c0 :: rest =>
          some { conversation with
                 message_map := mapSet conversation.message_map conversation.last_message_id
                   { msg with content := { c0 with body := c0.body ++ arg.full_token } :: rest } }
    else
      let used_chunks : Option (List ChunkModel) :=
        match bot with
        | some b =>
          if b.display_retrieved_chunks && decide (0 < search_results.length) then
            some ((env.filter_used_results arg.full_token search_results).map (fun r =>
              { content := r.content
                content_type := (env.get_source_link r.source).1
                source := (env.get_source_link r.source).2
                rank := r.rank }))
          else none
        | none => none
      let assistant_msg_id := env.new_ulid
      let message : MessageModel :=
        { role := "assistant"
          content := [{ content_type := "text", body := arg.full_token,
                        media_type := none, file_name := none }]
          model := chat_input.message.model
          children := []
          parent := some user_msg_id
          create_time := env.current_time
          feedback := none
          used_chunks := used_chunks
          thinking_log := none }
      let m1 := mapInsert conversation.message_map assistant_msg_id message
      -- conversation.message_map[user_msg_id].children.append(assistant_msg_id)
      match mapLookup m1 user_msg_id with
      | none => none
      | some user_msg =>
        some { conversation with
               message_map := mapSet m1 user_msg_id
                 { user_msg with children := user_msg.children ++ [assistant_msg_id] }
               last_message_id := assistant_msg_id }

/-- `on_stop` (websocket.py:50-114): terminal event of the plain flow.  After
the message-tree mutation, accumulate the price, derive `should_continue`,
persist the conversation, then post the terminal STREAMING_END frame. -/
def on_stop (env : Env) (arg : OnStopInput) (connection_id user_id : String)
    (conversation : ConversationModel) (chat_input : ChatInput) (user_msg_id : String)
    (bot : Option BotModel) (search_results : List SearchResult) :
    Option (ConversationModel × List Effect) :=
  match on_stop_update env arg conversation chat_input user_msg_id bot search_results with
  | none => none
  | some conv1 =>
    let conv2 := { conv1 with
                   total_price := conv1.total_price + arg.price
                   should_continue := arg.stop_reason == "max_tokens" }
    some (conv2, [Effect.storeConversation user_id conv2,
                  Effect.post connection_id (OutFrame.streamingEnd arg.stop_reason)])

/-- `on_agent_stop` (websocket.py:150-191): terminal event of the agent flow.
`should_continue` is deliberately not updated (the assignment is commented out
in the source). -/
def on_agent_stop_update (env : Env) (arg : AgentOnStopInput)
    (conversation : ConversationModel) (chat_input : ChatInput) (user_msg_id : String) :
    Option ConversationModel :=
  let assistant_msg_id := env.new_ulid
  let message : MessageModel :=
    { role := "assistant"
      content := [{ content_type := "text", body := arg.last_response_text,
                    media_type := none, file_name := none }]
      model := chat_input.message.model
      children := []
      parent := some user_msg_id
      create_time := env.current_time
      feedback := none
      used_chunks := none
      thinking_log := some arg.thinking_conversation }
  let m1 := mapInsert conversation.message_map assistant_msg_id message
  match mapLookup m1 user_msg_id with
  | none => none
  | some user_msg =>
    some { conversation with
           message_map := mapSet m1 user_msg_id
             { user_msg with children := user_msg.children ++ [assistant_msg_id] }
           last_message_id := assistant_msg_id }

/-- `on_agent_stop` (websocket.py:150-191): after linking the new assistant
message, accumulate the price, persist, then post STREAMING_END. -/
def on_agent_stop (env : Env) (arg : AgentOnStopInput) (connection_id user_id : String)
    (conversation : ConversationModel) (chat_input : ChatInput) (user_msg_id : String) :
    Option (ConversationModel × List Effect) :=
  match on_agent_stop_update env arg conversation chat_input user_msg_id with
  | none => none
  | some conv1 =>
    let conv2 := { conv1 with total_price := conv1.total_price + arg.price }
    some (conv2, [Effect.storeConversation user_id conv2,
                  Effect.post connection_id (OutFrame.streamingEnd arg.stop_reason)])

/-- The plain (non-agent) part of `process_chat_input` (websocket.py:254-328):
optional knowledge pre-fetch, stream invocation, bot-last-used update.
`Except.error` models a Python exception escaping to the handler; the
composition of backend arguments is elided except for the dict reads that can
raise. -/
def plain_chat_flow (env : Env) (user_id : String) (chat_input : ChatInput)
    (connection_id user_msg_id : String) (conversation : ConversationModel)
    (bot : Option BotModel) : List Effect × Except String LambdaResult :=
  let pre : List Effect × Except String (List (String × MessageModel)) :=
    match bot with
    | some b =>
      if b.has_knowledge then
        -- FETCHING_KNOWLEDGE is posted before the query is read (websocket.py:257-268)
        match mapLookup conversation.message_map user_msg_id with
        | none => ([Effect.post connection_id OutFrame.fetchingKnowledge], Except.error "KeyError")
        | some um =>
          match um.content.getLast? with
          | none => ([Effect.post connection_id OutFrame.fetchingKnowledge], Except.error "IndexError")
          | some c =>
            let query := c.body
            let search_results := env.search_related_docs b query
            let cwc := env.insert_knowledge conversation search_results b.display_retrieved_chunks
            ([Effect.post connection_id OutFrame.fetchingKnowledge,
              Effect.searchDocs b.id query], Except.ok cwc.message_map)
      else ([], Except.ok conversation.message_map)
    | none => ([], Except.ok conversation.message_map)
  match pre with
  | (fx, Except.error e) => (fx, Except.error e)
  | (fx, Except.ok message_map) =>
    -- trace_to_root reads conversation.message_map[user_msg_id].parent (websocket.py:279)
    match mapLookup conversation.message_map user_msg_id with
    | none => (fx, Except.error "KeyError")
    | some _ =>
      -- instruction read for compose_args_for_converse_api (websocket.py:289-291)
      let instr_ok : Bool :=
        match mapLookup message_map "instruction" with
        | some im => !im.content.isEmpty
        | none => true
      if !instr_ok then (fx, Except.error "IndexError")
      else
        let fx2 := fx ++ [Effect.streamRun]
        match env.stream_result with
        | Except.error e =>
          -- caught locally (websocket.py:312-321): 500 result, no ERROR frame
          (fx2, Except.ok { statusCode := 500, body := "Failed to run stream handler: " ++ e })
        | Except.ok _ =>
          if truthy_str chat_input.bot_id then
            (fx2 ++ [Effect.modifyBotLastUsed user_id (chat_input.bot_id.getD "")],
             Except.ok { statusCode := 200, body := "Message sent." })
          else
            (fx2, Except.ok { statusCode := 200, body := "Message sent." })

/-- `process_chat_input` (websocket.py:194-328): prepare the conversation,
then select the agent flow or the plain flow. -/
def process_chat_input (env : Env) (user_id : String) (chat_input : ChatInput)
    (connection_id : String) : List Effect × Except String LambdaResult :=
  match env.prepare_conversation user_id chat_input with
  | Except.error _ =>
    -- RecordNotFoundError (websocket.py:202-215)
    if truthy_str chat_input.bot_id then
      ([Effect.post connection_id (OutFrame.error "bot_not_found")],
       Except.ok { statusCode := 404,
                   body := "bot " ++ chat_input.bot_id.getD "" ++ " not found." })
    else
      ([], Except.ok { statusCode := 400, body := "Invalid request." })
  | Except.ok (user_msg_id, conversation, bot) =>
    match bot with
    | some b =>
      if b.is_agent_enabled then
        let tools := b.agent_tools.map ToolRef.named
          ++ (if b.has_knowledge then [ToolRef.knowledge b.id chat_input.message.model] else [])
        -- trace_to_root reads conversation.message_map[user_msg_id].parent (websocket.py:246)
        match mapLookup conversation.message_map user_msg_id with
        | none => ([], Except.error "KeyError")
        | some _ =>
          ([Effect.agentRun tools], Except.ok { statusCode := 200, body := "Message sent." })
      else
        plain_chat_flow env user_id chat_input connection_id user_msg_id conversation (some b)
    | none =>
      plain_chat_flow env user_id chat_input connection_id user_msg_id conversation none

/-- Parsed JSON body of a non-lifecycle frame; absent fields model missing
dict keys (`KeyError` on read). -/
structure BodyData where
  step : Option String
  token : Option String
  index : Option Int
  part : Option String
  deriving DecidableEq

/-- One inbound API Gateway websocket event.  `body = none` models a body
that `json.loads` rejects. -/
structure Event where
  routeKey : String
  connectionId : String
  body : Option BodyData
  deriving DecidableEq

/-- The body of the top-level `try` (websocket.py:351-443): dispatch on the
`step` field.  Returns the updated table, the posted effects, and either a
normal result or the text of a raised exception. -/
def handler_try (env : Env) (now : Nat) (table : List TableItem)
    (connection_id : String) (body : BodyData) :
    List TableItem × List Effect × Except String LambdaResult :=
  let expire := now + 60 * 2
  if body.step == some "START" then
    match body.token with
    | none => (table, [], Except.error "KeyError")
    | some token =>
      match env.verify_token token with
      | Except.error _ =>
        -- caught locally (websocket.py:364-369): 403, no frame
        (table, [], Except.ok { statusCode := 403, body := "Invalid token." })
      | Except.ok user_id =>
        (put_item table { connectionId := connection_id, messagePartId := 0,
                          userId := some user_id, messagePart := none, expire := expire },
         [], Except.ok { statusCode := 200, body := "Session started." })
  else if body.step == some "END" then
    -- response["Items"][0]["UserId"]: IndexError when no owner row matches
    match table.find? (owner_filter connection_id) with
    | none => (table, [], Except.error "list index out of range")
    | some owner =>
      let user_id := owner.userId.getD ""
      let message_parts := table.filter (end_part_filter connection_id)
      if message_parts.all (fun it => it.messagePart.isSome) then
        match env.parse_chat_input (concat_parts message_parts) with
        | none => (table, [], Except.error "ValidationError")
        | some chat_input =>
          let pr := process_chat_input env user_id chat_input connection_id
          (table, pr.1, pr.2)
      else (table, [], Except.error "KeyError")
  else
    -- part frame: part_index = body["index"] + 1 (websocket.py:431)
    match body.index, body.part with
    | some index, some part =>
      (put_item table { connectionId := connection_id, messagePartId := index + 1,
                        userId := none, messagePart := some part, expire := expire },
       [], Except.ok { statusCode := 200, body := "Message part received." })
    | _, _ => (table, [], Except.error "KeyError")

/-- `handler` (websocket.py:331-452).  Lifecycle frames return immediately;
otherwise the body is parsed (outside the `try`; failure propagates as
`Except.error`), then the `try` body runs and any exception it raises is
converted to an ERROR frame plus a 500 result. -/
def handler (env : Env) (now : Nat) (table : List TableItem) (event : Event) :
    Except String (List TableItem × List Effect × LambdaResult) :=
  if event.routeKey == "$connect" then
    Except.ok (table, [], { statusCode := 200, body := "Connected." })
  else if event.routeKey == "$disconnect" then
    Except.ok (table, [], { statusCode := 200, body := "Disconnected." })
  else
    match event.body with
    | none => Except.error "JSONDecodeError"
    | some body =>
      match handler_try env now table event.connectionId body with
      | (t, fx, Except.ok res) => Except.ok (t, fx, res)
      | (t, fx, Except.error e) =>
        Except.ok (t, fx ++ [Effect.post event.connectionId (OutFrame.error e)],
                   { statusCode := 500, body := e })

/-- The canonical stored rows for payload fragments F0..Fn of connection `c`:
fragment `i` is stored at sequence number `i + 1` (websocket.py:431). -/
def canonical_parts (c : String) (exp : Nat) (F : List String) : List TableItem :=
  (List.range F.length).map (fun i =>
    { connectionId := c, messagePartId := Int.ofNat i + 1, userId := none,
      messagePart := some (F.getD i ""), expire := exp })

/-- The row written by the part branch of the handler for client index `i`. -/
def part_row (c : String) (exp : Nat) (i : Int) (p : String) : TableItem :=
  { connectionId := c, messagePartId := i + 1, userId := none,
    messagePart := some p, expire := exp }

/-- Apply a sequence of part-frame writes `(index, fragment)` for connection
`c`, in submission order. -/
def apply_parts (t : List TableItem) (c : String) (exp : Nat)
    (ws : List (Int × String)) : List TableItem :=
  ws.foldl (fun acc w => put_item acc (part_row c exp w.1 w.2)) t

/-- The last fragment value written for index `i` in a write sequence. -/
def last_write (ws : List (Int × String)) (i : Int) : Option String :=
  (ws.reverse.find? (fun w => w.1 == i)).map (fun w => w.2)

/-- The primary key of a table row. -/
def item_key (it : TableItem) : String × Int := (it.connectionId, it.messagePartId)

/-- No two rows of the table share a `(ConnectionId, MessagePartId)` key. -/
def keys_nodup (t : List TableItem) : Prop := (t.map item_key).Nodup

/-- Recognises the persistence effect (`store_conversation`). -/
def is_store : Effect → Bool
  | Effect.storeConversation _ _ => true
  | _ => false

/-- Recognises the terminal STREAMING_END post. -/
def is_streaming_end : Effect → Bool
  | Effect.post _ (OutFrame.streamingEnd _) => true
  | _ => false

/-- Recognises the invocation of a generation backend (either flow). -/
def is_run : Effect → Bool
  | Effect.agentRun _ => true
  | Effect.streamRun => true
  | _ => false

/-- Every STREAMING_END post in `fx` is preceded by a persistence effect. -/
def store_precedes_end (fx : List Effect) : Prop :=
  ∀ pre f suf, fx = pre ++ f :: suf → is_streaming_end f = true →
    ∃ g ∈ pre, is_store g = true

/-- Fixture: a message with the given content blocks, role and parent. -/
def wMsg (content : List ContentModel) (role : String) (parent : Option String) : MessageModel :=
  { role := role, content := content, model := "mdl", children := [], parent := parent,
    create_time := 0, feedback := none, used_chunks := none, thinking_log := none }

/-- Fixture: a plain text content block. -/
def wBlock (b : String) : ContentModel :=
  { content_type := "text", body := b, media_type := none, file_name := none }

/-- Fixture environment whose conversation lookup raises RecordNotFoundError. -/
def wEnv : Env :=
  { verify_token := fun _ => Except.ok "user1"
    parse_chat_input := fun _ => none
    prepare_conversation := fun _ _ => Except.error ()
    search_related_docs := fun _ _ => []
    filter_used_results := fun _ rs => rs
    get_source_link := fun s => ("s3", s)
    insert_knowledge := fun conv _ _ => conv
    stream_result := Except.ok ()
    new_ulid := "A1"
    current_time := 3 }

/-- Fixture: a conversation holding one user message under key `u0`. -/
def wConvUser : ConversationModel :=
  { message_map := [("u0", wMsg [wBlock "q"] "user" none)]
    last_message_id := "u0", total_price := 0, should_continue := false }

/-- Fixture: a bot with one declared agent tool and a knowledge base. -/
def wBotAgent : BotModel :=
  { id := "b1", agent_tools := ["internet_search"], has_knowledge_base := true,
    display_retrieved_chunks := false }

/-- Fixture environment whose conversation lookup succeeds with `wBotAgent`. -/
def wEnvAgent : Env :=
  { wEnv with prepare_conversation := fun _ _ => Except.ok ("u0", wConvUser, some wBotAgent) }

/-- Fixture: chat input of a continuation run (no bot). -/
def wCiCont : ChatInput := { bot_id := none, continue_generate := true, message := { model := "mdl" } }

/-- Fixture: chat input of a fresh run (no bot). -/
def wCiNew : ChatInput := { bot_id := none, continue_generate := false, message := { model := "mdl" } }

/-- Fixture: chat input naming bot `b1`. -/
def wCiBot : ChatInput := { bot_id := some "b1", continue_generate := false, message := { model := "mdl" } }

/-- Fixture: plain-stream terminal event. -/
def wArg : OnStopInput := { full_token := " world", stop_reason := "stop", price := 0 }

/-- Fixture: agent terminal event. -/
def wAgentArg : AgentOnStopInput :=
  { last_response_text := "ans", stop_reason := "end_turn", price := 1, thinking_conversation := [] }

/-- Fixture: conversation whose last message has a single content block. -/
def wConvOne : ConversationModel :=
  { message_map := [("m", wMsg [wBlock "Hello"] "assistant" (some "u0"))]
    last_message_id := "m", total_price := 0, should_continue := false }

/-- The conversation `on_stop` produces from `wConvOne` on continuation. -/
def wConvOne2 : ConversationModel :=
  { message_map := [("m", wMsg [wBlock "Hello world"] "assistant" (some "u0"))]
    last_message_id := "m", total_price := 0 + 0, should_continue := false }

/-- The effects `on_stop` produces from `wConvOne` on continuation. -/
def wFxOne : List Effect :=
  [Effect.storeConversation "u1" wConvOne2, Effect.post "c1" (OutFrame.streamingEnd "stop")]

/-- Fixture: conversation whose last message has two content blocks. -/
def wConvTwo : ConversationModel :=
  { message_map := [("m", wMsg [wBlock "Hello", wBlock "Hi"] "assistant" (some "u0"))]
    last_message_id := "m", total_price := 0, should_continue := false }

/-- The assistant message `on_agent_stop` builds from `wAgentArg` under `wEnv`. -/
def wAssistantMsg : MessageModel :=
  { wMsg [wBlock "ans"] "assistant" (some "u0") with create_time := 3, thinking_log := some [] }

/-- The conversation `on_agent_stop` produces from `wConvUser`. -/
def wAgentConv2 : ConversationModel :=
  { message_map := [("u0", { wMsg [wBlock "q"] "user" none with children := ["A1"] }),
                    ("A1", wAssistantMsg)]
    last_message_id := "A1", total_price := 0 + 1, should_continue := false }

/-- The effects `on_agent_stop` produces from `wConvUser`. -/
def wAgentFx : List Effect :=
  [Effect.storeConversation "u1" wAgentConv2, Effect.post "c1" (OutFrame.streamingEnd "end_turn")]

/-- Fixture: a table holding only the owner row of connection `c`. -/
def wOwnerTable : List TableItem :=
  [{ connectionId := "c", messagePartId := 0, userId := some "u", messagePart := none, expire := 100 }]


/-- Fixture: the body of an END frame. -/
def wEndBody : BodyData := { step := some "END", token := none, index := none, part := none }

/-- Fixture: an END event on connection `c`. -/
def wEvEnd : Event := { routeKey := "x", connectionId := "c", body := some wEndBody }

/-- Fixture: the body of a part frame carrying index 2. -/
def wPartBody : BodyData := { step := none, token := none, index := some 2, part := some "xy" }

/-- Fixture: a part event with index 2 on connection `c`. -/
def wEvPart : Event := { routeKey := "x", connectionId := "c", body := some wPartBody }

/-- Fixture: a part event with the hostile index -1 on connection `c`. -/
def wEvPartNeg : Event :=
  { routeKey := "x", connectionId := "c",
    body := some { step := none, token := none, index := some (-1), part := some "evil" } }

/-- Fixture: a table holding one payload fragment and no owner row. -/
def wPartOnlyTable : List TableItem := [part_row "c" 50 0 "x"]

/-! ## Helper lemmas -/

theorem mapLookup_cons {α : Type} (p : String × α) (m : List (String × α)) (k : String) :
    mapLookup (p :: m) k = if p.1 == k then some p.2 else mapLookup m k := by
  by_cases h : p.1 == k <;> simp [mapLookup, List.find?_cons, h]

theorem mapSet_cons {α : Type} (p : String × α) (m : List (String × α)) (k : String) (v : α) :
    mapSet (p :: m) k v = (if p.1 == k then (k, v) else p) :: mapSet m k v := rfl

theorem mapSet_keys {α : Type} (m : List (String × α)) (k : String) (v : α) :
    (mapSet m k v).map Prod.fst = m.map Prod.fst := by
  unfold mapSet
  rw [List.map_map]
  refine List.map_congr_left ?_
  intro p _
  by_cases h : p.1 = k
  · simp [Function.comp, h]
  · simp [Function.comp, h]

theorem mapLookup_mapSet_self {α : Type} (m : List (String × α)) (k : String) (v : α)
    (h : (mapLookup m k).isSome = true) : mapLookup (mapSet m k v) k = some v := by
  induction m with
  | nil => simp [mapLookup] at h
  | cons p m ih =>
    rw [mapLookup_cons] at h
    rw [mapSet_cons]
    by_cases hp : (p.1 == k) = true
    · rw [if_pos hp, mapLookup_cons]
      simp
    · rw [if_neg hp] at h
      rw [if_neg hp, mapLookup_cons, if_neg hp]
      exact ih h

theorem store_precedes_end_pair (a b : Effect) (ha : is_store a = true) :
    store_precedes_end [a, b] := by
  intro pre f suf hEq hEnd
  cases pre with
  | nil =>
    simp only [List.nil_append, List.cons.injEq] at hEq
    obtain ⟨h1, -⟩ := hEq
    rw [← h1] at hEnd
    cases a <;> simp_all [is_store, is_streaming_end]
  | cons x pre2 =>
    cases pre2 with
    | nil =>
      simp only [List.cons_append, List.nil_append, List.cons.injEq] at hEq
      exact ⟨x, by simp, hEq.1 ▸ ha⟩
    | cons y rest =>
      simp at hEq

theorem on_stop_some_elim (env : Env) (arg : OnStopInput) (cid uid : String)
    (conv : ConversationModel) (ci : ChatInput) (umid : String) (bot : Option BotModel)
    (sr : List SearchResult) (conv2 : ConversationModel) (fx : List Effect)
    (h : on_stop env arg cid uid conv ci umid bot sr = some (conv2, fx)) :
    (∃ conv1, on_stop_update env arg conv ci umid bot sr = some conv1 ∧
        conv2 = { conv1 with
                  total_price := conv1.total_price + arg.price
                  should_continue := arg.stop_reason == "max_tokens" }) ∧
    fx = [Effect.storeConversation uid conv2,
          Effect.post cid (OutFrame.streamingEnd arg.stop_reason)] := by
  unfold on_stop at h
  cases hu : on_stop_update env arg conv ci umid bot sr with
  | none => rw [hu] at h; cases h
  | some conv1 =>
    rw [hu] at h
    simp only [Option.some.injEq, Prod.mk.injEq] at h
    obtain ⟨h1, h2⟩ := h
    subst h1
    exact ⟨⟨conv1, rfl, rfl⟩, h2.symm⟩

theorem on_agent_stop_some_elim (env : Env) (arg : AgentOnStopInput) (cid uid : String)
    (conv : ConversationModel) (ci : ChatInput) (umid : String)
    (conv2 : ConversationModel) (fx : List Effect)
    (h : on_agent_stop env arg cid uid conv ci umid = some (conv2, fx)) :
    (∃ conv1, on_agent_stop_update env arg conv ci umid = some conv1 ∧
        conv2 = { conv1 with total_price := conv1.total_price + arg.price }) ∧
    fx = [Effect.storeConversation uid conv2,
          Effect.post cid (OutFrame.streamingEnd arg.stop_reason)] := by
  unfold on_agent_stop at h
  cases hu : on_agent_stop_update env arg conv ci umid with
  | none => rw [hu] at h; cases h
  | some conv1 =>
    rw [hu] at h
    simp only [Option.some.injEq, Prod.mk.injEq] at h
    obtain ⟨h1, h2⟩ := h
    subst h1
    exact ⟨⟨conv1, rfl, rfl⟩, h2.symm⟩

theorem on_stop_update_price (env : Env) (arg : OnStopInput) (conv : ConversationModel)
    (ci : ChatInput) (umid : String) (bot : Option BotModel) (sr : List SearchResult)
    (conv1 : ConversationModel)
    (h : on_stop_update env arg conv ci umid bot sr = some conv1) :
    conv1.total_price = conv.total_price := by
  simp only [on_stop_update] at h
  split at h
  · split at h
    · cases h
    · split at h
      · cases h
      · cases h; rfl
  · split at h
    · cases h
    · cases h; rfl

theorem on_agent_stop_update_price (env : Env) (arg : AgentOnStopInput)
    (conv : ConversationModel) (ci : ChatInput) (umid : String) (conv1 : ConversationModel)
    (h : on_agent_stop_update env arg conv ci umid = some conv1) :
    conv1.total_price = conv.total_price := by
  simp only [on_agent_stop_update] at h
  split at h
  · cases h
  · cases h; rfl

/-! ## C2 -/

/-- C2: in both the plain flow (`on_stop`) and the agent flow
(`on_agent_stop`), the conversation is persisted via `store_conversation`
strictly before the terminal STREAMING_END frame is posted: a STREAMING_END
post occurs in the effect trace, and every STREAMING_END post is preceded by
a persistence effect. -/
theorem c2_store_precedes_streaming_end :
    (∀ env arg cid uid conv ci umid bot sr conv2 fx,
        on_stop env arg cid uid conv ci umid bot sr = some (conv2, fx) →
        (∃ g ∈ fx, is_streaming_end g = true) ∧ store_precedes_end fx) ∧
    (∀ env arg cid uid conv ci umid conv2 fx,
        on_agent_stop env arg cid uid conv ci umid = some (conv2, fx) →
        (∃ g ∈ fx, is_streaming_end g = true) ∧ store_precedes_end fx) := by
  constructor
  · intro env arg cid uid conv ci umid bot sr conv2 fx h
    obtain ⟨-, hfx⟩ := on_stop_some_elim env arg cid uid conv ci umid bot sr conv2 fx h
    subst hfx
    exact ⟨⟨Effect.post cid (OutFrame.streamingEnd arg.stop_reason), by simp, rfl⟩,
      store_precedes_end_pair _ _ rfl⟩
  · intro env arg cid uid conv ci umid conv2 fx h
    obtain ⟨-, hfx⟩ := on_agent_stop_some_elim env arg cid uid conv ci umid conv2 fx h
    subst hfx
    exact ⟨⟨Effect.post cid (OutFrame.streamingEnd arg.stop_reason), by simp, rfl⟩,
      store_precedes_end_pair _ _ rfl⟩

/-- Witness for C2 at a concrete continuation run. -/
theorem c2_witness :
    on_stop wEnv wArg "c1" "u1" wConvOne wCiCont "u0" none [] = some (wConvOne2, wFxOne) ∧
    ((∃ g ∈ wFxOne, is_streaming_end g = true) ∧ store_precedes_end wFxOne) :=
  ⟨rfl, c2_store_precedes_streaming_end.1 wEnv wArg "c1" "u1" wConvOne wCiCont "u0" none []
    wConvOne2 wFxOne rfl⟩

/-! ## C8 -/

/-- C8: for every run in either flow that reaches its terminal event, the
conversation's total price after the run equals the pre-run total plus the
run's reported price (the addition happens exactly once, in the terminal
callback). -/
theorem c8_price_accumulated_once :
    (∀ env arg cid uid conv ci umid bot sr conv2 fx,
        on_stop env arg cid uid conv ci umid bot sr = some (conv2, fx) →
        conv2.total_price = conv.total_price + arg.price) ∧
    (∀ env arg cid uid conv ci umid conv2 fx,
        on_agent_stop env arg cid uid conv ci umid = some (conv2, fx) →
        conv2.total_price = conv.total_price + arg.price) := by
  constructor
  · intro env arg cid uid conv ci umid bot sr conv2 fx h
    obtain ⟨⟨conv1, hu, hc2⟩, -⟩ := on_stop_some_elim env arg cid uid conv ci umid bot sr conv2 fx h
    subst hc2
    simp [on_stop_update_price env arg conv ci umid bot sr conv1 hu]
  · intro env arg cid uid conv ci umid conv2 fx h
    obtain ⟨⟨conv1, hu, hc2⟩, -⟩ := on_agent_stop_some_elim env arg cid uid conv ci umid conv2 fx h
    subst hc2
    simp [on_agent_stop_update_price env arg conv ci umid conv1 hu]

/-- Witness for C8 at a concrete agent run. -/
theorem c8_witness :
    on_agent_stop wEnv wAgentArg "c1" "u1" wConvUser wCiNew "u0" = some (wAgentConv2, wAgentFx) ∧
    wAgentConv2.total_price = wConvUser.total_price + wAgentArg.price :=
  ⟨rfl, c8_price_accumulated_once.2 wEnv wAgentArg "c1" "u1" wConvUser wCiNew "u0"
    wAgentConv2 wAgentFx rfl⟩

/-! ## C3 -/

/-- C3 (amended): for every stop event with continue_generate=true whose
continuation target exists (last message present, nonempty content), the
full_token is appended to the body of the FIRST content block of the existing
last message; no new message is created, the message-map keys are unchanged,
and last_message_id is unchanged. -/
theorem c3_continuation_appends_to_first_block (env : Env) (arg : OnStopInput)
    (cid uid : String) (conv : ConversationModel) (ci : ChatInput) (umid : String)
    (bot : Option BotModel) (sr : List SearchResult) (conv2 : ConversationModel)
    (fx : List Effect)
    (hc : ci.continue_generate = true)
    (h : on_stop env arg cid uid conv ci umid bot sr = some (conv2, fx)) :
    ∃ msg c0 rest,
      mapLookup conv.message_map conv.last_message_id = some msg ∧
      msg.content = c0 :: rest ∧
      conv2.last_message_id = conv.last_message_id ∧
      conv2.message_map.map Prod.fst = conv.message_map.map Prod.fst ∧
      mapLookup conv2.message_map conv.last_message_id =
        some { msg with content := { c0 with body := c0.body ++ arg.full_token } :: rest } := by
  obtain ⟨⟨conv1, hu, hc2⟩, -⟩ := on_stop_some_elim env arg cid uid conv ci umid bot sr conv2 fx h
  subst hc2
  unfold on_stop_update at hu
  split at hu
  · split at hu
    · cases hu
    · rename_i msg hm
      split at hu
      · cases hu
      · rename_i c0 rest hcon
        simp only [Option.some.injEq] at hu
        subst hu
        refine ⟨msg, c0, rest, hm, hcon, rfl, mapSet_keys _ _ _, ?_⟩
        exact mapLookup_mapSet_self _ _ _ (by rw [hm]; rfl)
  · rename_i hcf
    exact absurd hc hcf

/-- C3 counterexample: with a prior last message of two content blocks
["Hello", "Hi"], a continuation stop event with full_token " world" yields
content ["Hello world", "Hi"]: the token is appended to the FIRST block, not
to the last block as the claim states. -/
theorem c3_counterexample :
    ((on_stop wEnv wArg "c1" "u1" wConvTwo wCiCont "u0" none []).map (fun r =>
        (mapLookup r.1.message_map "m").map (fun msg => msg.content)))
      = some (some [wBlock "Hello world", wBlock "Hi"]) ∧
    some (some [wBlock "Hello world", wBlock "Hi"]) ≠
      some (some [wBlock "Hello", wBlock "Hi world"]) :=
  ⟨rfl, by decide⟩

/-- Witness for C3 at a concrete single-block continuation. -/
theorem c3_witness :
    wCiCont.continue_generate = true ∧
    on_stop wEnv wArg "c1" "u1" wConvOne wCiCont "u0" none [] = some (wConvOne2, wFxOne) ∧
    (∃ msg c0 rest,
      mapLookup wConvOne.message_map wConvOne.last_message_id = some msg ∧
      msg.content = c0 :: rest ∧
      wConvOne2.last_message_id = wConvOne.last_message_id ∧
      wConvOne2.message_map.map Prod.fst = wConvOne.message_map.map Prod.fst ∧
      mapLookup wConvOne2.message_map wConvOne.last_message_id =
        some { msg with content := { c0 with body := c0.body ++ wArg.full_token } :: rest }) :=
  ⟨rfl, rfl, c3_continuation_appends_to_first_block wEnv wArg "c1" "u1" wConvOne wCiCont "u0"
    none [] wConvOne2 wFxOne rfl rfl⟩

/-! ## C5 -/

/-- C5: when `prepare_conversation` raises RecordNotFoundError, a request
naming a (nonempty) bot id gets exactly one ERROR frame with reason
bot_not_found and a 404 result; a request with no bot id gets a 400 result
and no frame; in both cases there is no generation-run effect and no
persistence effect. -/
theorem c5_record_not_found (env : Env) (uid : String) (ci : ChatInput) (cid : String)
    (h : env.prepare_conversation uid ci = Except.error ()) :
    (∀ bid, ci.bot_id = some bid → bid ≠ "" →
        process_chat_input env uid ci cid =
          ([Effect.post cid (OutFrame.error "bot_not_found")],
           Except.ok { statusCode := 404, body := "bot " ++ bid ++ " not found." })) ∧
    (ci.bot_id = none →
        process_chat_input env uid ci cid =
          ([], Except.ok { statusCode := 400, body := "Invalid request." })) ∧
    (∀ g ∈ (process_chat_input env uid ci cid).1, is_store g = false ∧ is_run g = false) := by
  refine ⟨?_, ?_, ?_⟩
  · intro bid hbid hne
    unfold process_chat_input
    rw [h]
    simp [truthy_str, hbid, hne]
  · intro hb
    unfold process_chat_input
    rw [h]
    simp [truthy_str, hb]
  · intro g hg
    unfold process_chat_input at hg
    rw [h] at hg
    by_cases ht : truthy_str ci.bot_id = true
    · simp [ht] at hg
      subst hg
      exact ⟨rfl, rfl⟩
    · simp [ht] at hg

/-- Witness for C5 at a concrete unknown-bot request. -/
theorem c5_witness :
    wEnv.prepare_conversation "u1" wCiBot = Except.error () ∧
    wCiBot.bot_id = some "b1" ∧ "b1" ≠ "" ∧
    process_chat_input wEnv "u1" wCiBot "c1" =
      ([Effect.post "c1" (OutFrame.error "bot_not_found")],
       Except.ok { statusCode := 404, body := "bot b1 not found." }) :=
  ⟨rfl, rfl, by decide, (c5_record_not_found wEnv "u1" wCiBot "c1" rfl).1 "b1" rfl (by decide)⟩

/-! ## C4 -/

theorem fetching_mem_plain_flow (env : Env) (uid : String) (ci : ChatInput)
    (cid umid : String) (conv : ConversationModel) (bot : Option BotModel) (cid2 : String)
    (hg : Effect.post cid2 OutFrame.fetchingKnowledge ∈
        (plain_chat_flow env uid ci cid umid conv bot).1) :
    ∃ b, bot = some b ∧ b.has_knowledge = true := by
  unfold plain_chat_flow at hg
  cases bot with
  | none =>
    cases hm : mapLookup conv.message_map umid <;> simp only [hm] at hg
    · simp at hg
    · split at hg
      · simp at hg
      · split at hg
        · simp at hg
        · split at hg <;> simp at hg
  | some b =>
    by_cases hk : b.has_knowledge = true
    · exact ⟨b, rfl, hk⟩
    · dsimp only at hg
      rw [if_neg hk] at hg
      cases hm : mapLookup conv.message_map umid <;> simp only [hm] at hg
      · simp at hg
      · split at hg
        · simp at hg
        · split at hg
          · simp at hg
          · split at hg <;> simp at hg

/-- C4: a request whose resolved bot declares at least one agent tool takes
the agent flow: the only effect is one agent-runner invocation whose tool set
is the declared tools plus the knowledge tool exactly when the bot has a
knowledge base; no FETCHING_KNOWLEDGE frame and no knowledge pre-fetch
occur.  Conversely a FETCHING_KNOWLEDGE frame is only ever posted for a
resolved bot that is not agent-enabled and has a knowledge base. -/
theorem c4_agent_flow_selection :
    (∀ env uid ci cid umid conv b,
        env.prepare_conversation uid ci = Except.ok (umid, conv, some b) →
        b.is_agent_enabled = true →
        (mapLookup conv.message_map umid).isSome = true →
        process_chat_input env uid ci cid =
          ([Effect.agentRun (b.agent_tools.map ToolRef.named
              ++ (if b.has_knowledge then [ToolRef.knowledge b.id ci.message.model] else []))],
           Except.ok { statusCode := 200, body := "Message sent." })) ∧
    (∀ env uid ci cid,
        Effect.post cid OutFrame.fetchingKnowledge ∈ (process_chat_input env uid ci cid).1 →
        ∃ umid conv b, env.prepare_conversation uid ci = Except.ok (umid, conv, some b) ∧
          b.is_agent_enabled = false ∧ b.has_knowledge = true) := by
  constructor
  · intro env uid ci cid umid conv b hprep hb hm
    obtain ⟨v, hv⟩ := Option.isSome_iff_exists.mp hm
    unfold process_chat_input
    rw [hprep]
    simp [hb, hv]
  · intro env uid ci cid hg
    unfold process_chat_input at hg
    cases hprep : env.prepare_conversation uid ci with
    | error e =>
      rw [hprep] at hg
      by_cases ht : truthy_str ci.bot_id = true <;> simp [ht] at hg
    | ok trip =>
      obtain ⟨umid, conv, bot⟩ := trip
      rw [hprep] at hg
      dsimp only at hg
      cases bot with
      | none =>
        obtain ⟨b, hb, -⟩ := fetching_mem_plain_flow env uid ci cid umid conv none cid hg
        cases hb
      | some b =>
        dsimp only at hg
        by_cases hae : b.is_agent_enabled = true
        · rw [if_pos hae] at hg
          cases hm : mapLookup conv.message_map umid <;> simp [hm] at hg
        · rw [if_neg hae] at hg
          obtain ⟨b2, hb2, hk⟩ := fetching_mem_plain_flow env uid ci cid umid conv (some b) cid hg
          cases hb2
          exact ⟨umid, conv, b, rfl, by simpa using hae, hk⟩

/-- Witness for C4 at a concrete agent-enabled bot with a knowledge base. -/
theorem c4_witness :
    wEnvAgent.prepare_conversation "u1" wCiBot = Except.ok ("u0", wConvUser, some wBotAgent) ∧
    wBotAgent.is_agent_enabled = true ∧
    (mapLookup wConvUser.message_map "u0").isSome = true ∧
    process_chat_input wEnvAgent "u1" wCiBot "c1" =
      ([Effect.agentRun (wBotAgent.agent_tools.map ToolRef.named
          ++ (if wBotAgent.has_knowledge then [ToolRef.knowledge wBotAgent.id wCiBot.message.model]
              else []))],
       Except.ok { statusCode := 200, body := "Message sent." }) :=
  ⟨rfl, rfl, rfl, c4_agent_flow_selection.1 wEnvAgent "u1" wCiBot "c1" "u0" wConvUser wBotAgent
    rfl rfl rfl⟩

/-! ## Table lemmas -/

theorem get_item_put_item_self (t : List TableItem) (it : TableItem) :
    get_item (put_item t it) it.connectionId it.messagePartId = some it := by
  unfold get_item put_item
  exact List.find?_cons_of_pos _ (by simp)

theorem find?_filter_of_imp {α : Type} (p q : α → Bool) (l : List α)
    (himp : ∀ a, p a = true → q a = true) :
    (l.filter q).find? p = l.find? p := by
  induction l with
  | nil => rfl
  | cons a l ih =>
    cases hq : q a
    · have hp : ¬p a = true := fun hpa => by rw [himp a hpa] at hq; cases hq
      rw [List.filter_cons, if_neg (by simp [hq]), List.find?_cons_of_neg _ hp, ih]
    · rw [List.filter_cons, if_pos hq]
      cases hp : p a
      · rw [List.find?_cons_of_neg _ (by simp [hp]), List.find?_cons_of_neg _ (by simp [hp]), ih]
      · rw [List.find?_cons_of_pos _ hp, List.find?_cons_of_pos _ hp]

theorem get_item_put_item_ne (t : List TableItem) (it : TableItem) (c : String) (s : Int)
    (h : ¬(c = it.connectionId ∧ s = it.messagePartId)) :
    get_item (put_item t it) c s = get_item t c s := by
  unfold get_item put_item
  have hhead : (it.connectionId == c && it.messagePartId == s) = false := by
    cases hc : it.connectionId == c
    · simp
    · cases hs2 : it.messagePartId == s
      · simp [hs2]
      · exact absurd ⟨(beq_iff_eq.mp hc).symm, (beq_iff_eq.mp hs2).symm⟩ h
  rw [List.find?_cons_of_neg _ (by simp [hhead])]
  refine find?_filter_of_imp _ _ t ?_
  intro a hpa
  simp only [Bool.and_eq_true, beq_iff_eq] at hpa
  simp only [Bool.not_eq_true', Bool.and_eq_false_iff, beq_eq_false_iff_ne]
  by_contra hcon
  push_neg at hcon
  exact h ⟨hpa.1 ▸ hcon.1, hpa.2 ▸ hcon.2⟩

/-! ## C6 -/

/-- C6 (amended): for every non-lifecycle frame whose body parses, no
exception escapes the handler, and any exception raised inside the
step-processing try block is converted into an ERROR frame appended to the
already-posted frames plus a 500 result.  (A body rejected by `json.loads`
is parsed before the try block and its exception propagates: see the
counterexample.) -/
theorem c6_try_block_exceptions_converted (env : Env) (now : Nat) (table : List TableItem)
    (event : Event) (body : BodyData)
    (h1 : event.routeKey ≠ "$connect") (h2 : event.routeKey ≠ "$disconnect")
    (hb : event.body = some body) :
    (∃ out, handler env now table event = Except.ok out) ∧
    (∀ t fx e, handler_try env now table event.connectionId body = (t, fx, Except.error e) →
        handler env now table event =
          Except.ok (t, fx ++ [Effect.post event.connectionId (OutFrame.error e)],
                     { statusCode := 500, body := e })) := by
  have hr1 : (event.routeKey == "$connect") = false := beq_eq_false_iff_ne.mpr h1
  have hr2 : (event.routeKey == "$disconnect") = false := beq_eq_false_iff_ne.mpr h2
  constructor
  · unfold handler
    rw [hr1, hr2, hb]
    simp only [Bool.false_eq_true, if_false]
    rcases hE : handler_try env now table event.connectionId body with ⟨t, fx, r⟩
    cases r
    · exact ⟨_, rfl⟩
    · exact ⟨_, rfl⟩
  · intro t fx e hht
    unfold handler
    rw [hr1, hr2, hb]
    simp only [Bool.false_eq_true, if_false]
    rw [hht]

/-- C6 counterexample: a non-lifecycle frame whose body fails JSON parsing
raises outside the top-level try block (websocket.py:348 precedes the try at
websocket.py:351), so the exception propagates out of the handler and no
ERROR frame is sent. -/
theorem c6_counterexample :
    handler wEnv 5 [] { routeKey := "x", connectionId := "c", body := none } =
      Except.error "JSONDecodeError" := rfl

/-- Witness for C6 at a concrete END frame whose owner lookup raises. -/
theorem c6_witness :
    wEvEnd.routeKey ≠ "$connect" ∧ wEvEnd.routeKey ≠ "$disconnect" ∧
    wEvEnd.body = some wEndBody ∧
    (∃ out, handler wEnv 5 [] wEvEnd = Except.ok out) ∧
    handler wEnv 5 [] wEvEnd =
      Except.ok ([], [Effect.post "c" (OutFrame.error "list index out of range")],
                 { statusCode := 500, body := "list index out of range" }) :=
  ⟨by decide, by decide, rfl,
   (c6_try_block_exceptions_converted wEnv 5 [] wEvEnd wEndBody (by decide) (by decide) rfl).1,
   (c6_try_block_exceptions_converted wEnv 5 [] wEvEnd wEndBody (by decide) (by decide) rfl).2
     [] [] "list index out of range" rfl⟩

/-! ## C7 -/

/-- C7 (amended): a part frame whose client-supplied index is nonnegative is
stored at sequence number index+1, which is at least 1, and the write leaves
every sequence-0 owner record untouched.  (A negative index is not validated;
index = -1 writes at sequence 0 and overwrites the owner record: see the
counterexample.) -/
theorem c7_nonneg_index_preserves_owner (env : Env) (now : Nat) (table : List TableItem)
    (event : Event) (body : BodyData) (i : Int) (p : String)
    (h1 : event.routeKey ≠ "$connect") (h2 : event.routeKey ≠ "$disconnect")
    (hb : event.body = some body)
    (hstep : body.step = none) (hidx : body.index = some i) (hpart : body.part = some p)
    (hi : 0 ≤ i) :
    handler env now table event =
      Except.ok (put_item table (part_row event.connectionId (now + 60 * 2) i p), [],
                 { statusCode := 200, body := "Message part received." }) ∧
    1 ≤ i + 1 ∧
    (∀ c0, get_item (put_item table (part_row event.connectionId (now + 60 * 2) i p)) c0 0 =
        get_item table c0 0) := by
  have hr1 : (event.routeKey == "$connect") = false := beq_eq_false_iff_ne.mpr h1
  have hr2 : (event.routeKey == "$disconnect") = false := beq_eq_false_iff_ne.mpr h2
  refine ⟨?_, by omega, ?_⟩
  · unfold handler
    rw [hr1, hr2, hb]
    simp only [Bool.false_eq_true, if_false]
    unfold handler_try
    rw [hstep, hidx, hpart]
    simp [part_row]
  · intro c0
    apply get_item_put_item_ne
    rintro ⟨-, h0⟩
    simp only [part_row] at h0
    omega

/-- C7 counterexample: a part frame with client index -1 is stored at
sequence number 0 and overwrites the session-owner record. -/
theorem c7_counterexample :
    handler wEnv 5 wOwnerTable wEvPartNeg =
      Except.ok ([{ connectionId := "c", messagePartId := 0, userId := none,
                    messagePart := some "evil", expire := 125 }], [],
                 { statusCode := 200, body := "Message part received." }) ∧
    get_item [{ connectionId := "c", messagePartId := 0, userId := none,
                messagePart := some "evil", expire := 125 }] "c" 0 ≠
      get_item wOwnerTable "c" 0 :=
  ⟨rfl, by decide⟩

/-- Witness for C7 at a concrete part frame with index 2. -/
theorem c7_witness :
    wEvPart.routeKey ≠ "$connect" ∧ wEvPart.routeKey ≠ "$disconnect" ∧
    wEvPart.body = some wPartBody ∧ wPartBody.step = none ∧
    wPartBody.index = some 2 ∧ wPartBody.part = some "xy" ∧ (0 : Int) ≤ 2 ∧
    handler wEnv 5 wOwnerTable wEvPart =
      Except.ok (put_item wOwnerTable (part_row "c" 125 2 "xy"), [],
                 { statusCode := 200, body := "Message part received." }) ∧
    (∀ c0, get_item (put_item wOwnerTable (part_row "c" 125 2 "xy")) c0 0 =
        get_item wOwnerTable c0 0) :=
  ⟨by decide, by decide, rfl, rfl, rfl, rfl, by decide,
   (c7_nonneg_index_preserves_owner wEnv 5 wOwnerTable wEvPart wPartBody 2 "xy"
     (by decide) (by decide) rfl rfl rfl rfl (by decide)).1,
   (c7_nonneg_index_preserves_owner wEnv 5 wOwnerTable wEvPart wPartBody 2 "xy"
     (by decide) (by decide) rfl rfl rfl rfl (by decide)).2.2⟩

/-! ## C10 -/

/-- C10: an END frame for a connection with no session-owner record makes the
owner lookup raise (`Items[0]` on an empty result); the exception reaches the
generic top-level catch, which posts one ERROR frame carrying the raw
exception text and returns 500; no generation run starts and the table is
unchanged. -/
theorem c10_end_without_owner (env : Env) (now : Nat) (table : List TableItem)
    (event : Event) (body : BodyData)
    (h1 : event.routeKey ≠ "$connect") (h2 : event.routeKey ≠ "$disconnect")
    (hb : event.body = some body) (hstep : body.step = some "END")
    (hno : ∀ it ∈ table, owner_filter event.connectionId it = false) :
    handler env now table event =
      Except.ok (table,
                 [Effect.post event.connectionId (OutFrame.error "list index out of range")],
                 { statusCode := 500, body := "list index out of range" }) := by
  have hr1 : (event.routeKey == "$connect") = false := beq_eq_false_iff_ne.mpr h1
  have hr2 : (event.routeKey == "$disconnect") = false := beq_eq_false_iff_ne.mpr h2
  have hfind : table.find? (owner_filter event.connectionId) = none :=
    List.find?_eq_none.mpr (fun a ha h' => by rw [hno a ha] at h'; cases h')
  unfold handler
  rw [hr1, hr2, hb]
  simp only [Bool.false_eq_true, if_false]
  unfold handler_try
  rw [hstep]
  simp [hfind]

/-- Witness for C10 at a concrete table holding only a payload fragment. -/
theorem c10_witness :
    wEvEnd.routeKey ≠ "$connect" ∧ wEvEnd.routeKey ≠ "$disconnect" ∧
    wEvEnd.body = some wEndBody ∧ wEndBody.step = some "END" ∧
    (∀ it ∈ wPartOnlyTable, owner_filter wEvEnd.connectionId it = false) ∧
    handler wEnv 5 wPartOnlyTable wEvEnd =
      Except.ok (wPartOnlyTable,
                 [Effect.post "c" (OutFrame.error "list index out of range")],
                 { statusCode := 500, body := "list index out of range" }) :=
  ⟨by decide, by decide, rfl, rfl, by decide,
   c10_end_without_owner wEnv 5 wPartOnlyTable wEvEnd wEndBody (by decide) (by decide)
     rfl rfl (by decide)⟩

/-! ## Sorting lemmas for reassembly -/

theorem sort_parts_perm (l : List TableItem) : (sort_parts l).Perm l :=
  List.perm_insertionSort partLE l

theorem sort_parts_sorted (l : List TableItem) : List.Sorted partLE (sort_parts l) :=
  List.sorted_insertionSort partLE l

theorem sorted_lt_of_sorted_le_nodup (l : List TableItem)
    (hs : List.Sorted partLE l) (hn : (l.map (fun it => it.messagePartId)).Nodup) :
    List.Sorted partLT l := by
  have hne : l.Pairwise (fun a b => a.messagePartId ≠ b.messagePartId) :=
    List.pairwise_map.mp hn
  exact (hs.and hne).imp (fun h => lt_of_le_of_ne h.1 h.2)

theorem canonical_parts_sorted_lt (c : String) (exp : Nat) (F : List String) :
    List.Sorted partLT (canonical_parts c exp F) := by
  unfold canonical_parts List.Sorted
  rw [List.pairwise_map]
  refine (List.pairwise_lt_range F.length).imp ?_
  intro i j hij
  simp only [partLT, Int.ofNat_eq_natCast]
  omega

theorem canonical_parts_keys_nodup (c : String) (exp : Nat) (F : List String) :
    ((canonical_parts c exp F).map (fun it => it.messagePartId)).Nodup := by
  unfold canonical_parts
  rw [List.map_map]
  refine List.Nodup.map ?_ (List.nodup_range F.length)
  intro i j hij
  simp only [Function.comp, Int.ofNat_eq_natCast] at hij
  omega

theorem range_map_getD (F : List String) :
    (List.range F.length).map (fun i => F.getD i "") = F := by
  induction F with
  | nil => rfl
  | cons a F ih =>
    rw [List.length_cons, List.range_succ_eq_map, List.map_cons, List.map_map]
    have hf : ((fun i => (a :: F).getD i "") ∘ Nat.succ) = (fun i => F.getD i "") := rfl
    rw [hf, ih]
    rfl

theorem concat_parts_perm_canonical (c : String) (exp : Nat) (F : List String)
    (items : List TableItem) (hperm : items.Perm (canonical_parts c exp F)) :
    concat_parts items = String.join F := by
  have hsp : (sort_parts items).Perm (canonical_parts c exp F) :=
    (sort_parts_perm items).trans hperm
  have hnd : ((sort_parts items).map (fun it => it.messagePartId)).Nodup :=
    ((hsp.map (fun it => it.messagePartId)).nodup_iff).mpr
      (canonical_parts_keys_nodup c exp F)
  have hlt : List.Sorted partLT (sort_parts items) :=
    sorted_lt_of_sorted_le_nodup _ (sort_parts_sorted items) hnd
  have heq : sort_parts items = canonical_parts c exp F :=
    List.eq_of_perm_of_sorted hsp hlt (canonical_parts_sorted_lt c exp F)
  unfold concat_parts
  rw [heq]
  have hmapped : (canonical_parts c exp F).map (fun it => it.messagePart.getD "") = F := by
    unfold canonical_parts
    rw [List.map_map]
    exact range_map_getD F
  rw [hmapped]

theorem foldl_put_item_of_disjoint :
    ∀ (ws : List TableItem) (t : List TableItem),
      (ws.map item_key).Nodup →
      (∀ w ∈ ws, ∀ j ∈ t, item_key j ≠ item_key w) →
      ws.foldl put_item t = ws.reverse ++ t := by
  intro ws
  induction ws with
  | nil => intro t _ _; rfl
  | cons w ws ih =>
    intro t hnd hdisj
    rw [List.foldl_cons]
    have hput : put_item t w = w :: t := by
      unfold put_item
      rw [List.filter_eq_self.mpr]
      intro j hj
      have hne := hdisj w (List.mem_cons_self w ws) j hj
      simp only [Bool.not_eq_true', Bool.and_eq_false_iff, beq_eq_false_iff_ne]
      by_contra hcon
      push_neg at hcon
      exact hne (by simp [item_key, hcon.1, hcon.2])
    rw [hput]
    rw [ih (w :: t) (List.nodup_cons.mp hnd).2 ?_]
    · rw [List.reverse_cons, List.append_assoc, List.singleton_append]
    · intro u hu j hj
      rcases List.mem_cons.mp hj with hjw | hjt
      · subst hjw
        intro hkey
        exact (List.nodup_cons.mp hnd).1 (hkey ▸ List.mem_map_of_mem item_key hu)
      · exact hdisj u (List.mem_cons_of_mem w hu) j hjt

/-! ## C1 -/

/-- C1: reassembly concatenates fragments in ascending index order.  First:
for any retrieval order (any permutation of the stored rows for fragments
F0..Fn at sequence numbers 1..n+1), sorting by sequence number and joining
yields concat(F0,...,Fn).  Second, end to end: processing the part-frame
writes in any submission order on a table holding the owner row, then
filtering as the END-step query does, reassembles exactly concat(F0,...,Fn). -/
theorem c1_reassembly_concatenates_in_index_order (F : List String) (c uid : String)
    (exp oexp : Nat) :
    (∀ items : List TableItem, items.Perm (canonical_parts c exp F) →
        concat_parts items = String.join F) ∧
    (∀ σ : List Nat, σ.Perm (List.range F.length) →
        concat_parts
          ((apply_parts [{ connectionId := c, messagePartId := 0, userId := some uid,
                           messagePart := none, expire := oexp }] c exp
              (σ.map (fun i => (Int.ofNat i, F.getD i "")))).filter (end_part_filter c))
          = String.join F) := by
  constructor
  · intro items hperm
    exact concat_parts_perm_canonical c exp F items hperm
  · intro σ hσ
    have hσnd : σ.Nodup := hσ.nodup_iff.mpr (List.nodup_range F.length)
    have hfold : apply_parts [{ connectionId := c, messagePartId := 0, userId := some uid,
                                messagePart := none, expire := oexp }] c exp
        (σ.map (fun i => (Int.ofNat i, F.getD i "")))
        = (σ.map (fun i => part_row c exp (Int.ofNat i) (F.getD i ""))).reverse
          ++ [{ connectionId := c, messagePartId := 0, userId := some uid,
                messagePart := none, expire := oexp }] := by
      unfold apply_parts
      rw [← List.foldl_map (fun w : Int × String => part_row c exp w.1 w.2) put_item]
      rw [List.map_map]
      refine foldl_put_item_of_disjoint _ _ ?_ ?_
      · rw [List.map_map]
        refine List.Nodup.map ?_ hσnd
        intro i j hij
        simp only [Function.comp, item_key, part_row, Prod.mk.injEq, Int.ofNat_eq_natCast] at hij
        omega
      · intro w hw j hj
        obtain ⟨i, -, hwj⟩ := List.mem_map.mp hw
        rcases List.mem_singleton.mp hj with rfl
        subst hwj
        intro hkey
        have h2 : (0 : Int) = Int.ofNat i + 1 := congrArg Prod.snd hkey
        rw [Int.ofNat_eq_natCast] at h2
        omega
    rw [hfold, List.filter_append]
    have hko : ([{ connectionId := c, messagePartId := 0, userId := some uid,
                   messagePart := none, expire := oexp }].filter (end_part_filter c))
        = [] := by
      simp [end_part_filter]
    have hkeep : ((σ.map (fun i => part_row c exp (Int.ofNat i) (F.getD i ""))).reverse.filter
          (end_part_filter c))
        = (σ.map (fun i => part_row c exp (Int.ofNat i) (F.getD i ""))).reverse := by
      refine List.filter_eq_self.mpr ?_
      intro a ha
      obtain ⟨i, -, rfl⟩ := List.mem_map.mp (List.mem_reverse.mp ha)
      simp only [end_part_filter, part_row, beq_self_eq_true, Bool.true_and,
        decide_eq_true_eq, Int.ofNat_eq_natCast]
      omega
    rw [hko, hkeep, List.append_nil]
    refine concat_parts_perm_canonical c exp F _ ?_
    refine (List.reverse_perm _).trans ?_
    have hcan : canonical_parts c exp F
        = (List.range F.length).map (fun i => part_row c exp (Int.ofNat i) (F.getD i "")) := rfl
    rw [hcan]
    exact hσ.map _

/-- Witness for C1: three fragments submitted in order 1,0,2 and retrieved in
a scrambled order both reassemble to "abcdef". -/
theorem c1_witness :
    ([part_row "c" 9 1 "cd", part_row "c" 9 0 "ab", part_row "c" 9 2 "ef"].Perm
        (canonical_parts "c" 9 ["ab", "cd", "ef"]) ∧
      concat_parts [part_row "c" 9 1 "cd", part_row "c" 9 0 "ab", part_row "c" 9 2 "ef"]
        = String.join ["ab", "cd", "ef"]) ∧
    ([2, 0, 1].Perm (List.range 3) ∧
      concat_parts
        ((apply_parts [{ connectionId := "c", messagePartId := 0, userId := some "u",
                         messagePart := none, expire := 7 }] "c" 9
            ([2, 0, 1].map (fun i => (Int.ofNat i, ["ab", "cd", "ef"].getD i "")))).filter
          (end_part_filter "c")) = String.join ["ab", "cd", "ef"]) :=
  ⟨⟨by decide,
    (c1_reassembly_concatenates_in_index_order ["ab", "cd", "ef"] "c" "u" 9 7).1
      [part_row "c" 9 1 "cd", part_row "c" 9 0 "ab", part_row "c" 9 2 "ef"] (by decide)⟩,
   ⟨by decide,
    (c1_reassembly_concatenates_in_index_order ["ab", "cd", "ef"] "c" "u" 9 7).2
      [2, 0, 1] (by decide)⟩⟩

/-! ## C9 -/

theorem last_write_nil (i : Int) : last_write [] i = none := rfl

theorem last_write_cons (w : Int × String) (ws : List (Int × String)) (i : Int) :
    last_write (w :: ws) i =
      match last_write ws i with
      | some p => some p
      | none => if w.1 == i then some w.2 else none := by
  unfold last_write
  rw [List.reverse_cons, List.find?_append]
  cases hf : ws.reverse.find? (fun x => x.1 == i) with
  | some pr => simp [Option.or]
  | none =>
    cases hw : w.1 == i with
    | true => simp [Option.or, List.find?_cons, hw]
    | false => simp [Option.or, List.find?_cons, hw]

theorem get_item_apply_parts (c : String) (e : Nat) :
    ∀ (ws : List (Int × String)) (t : List TableItem) (i : Int),
      get_item (apply_parts t c e ws) c (i + 1) =
        match last_write ws i with
        | some p => some (part_row c e i p)
        | none => get_item t c (i + 1) := by
  intro ws
  induction ws with
  | nil => intro t i; rfl
  | cons w ws ih =>
    intro t i
    have hstep : apply_parts t c e (w :: ws)
        = apply_parts (put_item t (part_row c e w.1 w.2)) c e ws := rfl
    rw [hstep, ih, last_write_cons]
    cases hlw : last_write ws i with
    | some p => rfl
    | none =>
      cases hw : w.1 == i with
      | true =>
        have hwi : w.1 = i := beq_iff_eq.mp hw
        subst hwi
        exact get_item_put_item_self t (part_row c e w.1 w.2)
      | false =>
        refine get_item_put_item_ne t (part_row c e w.1 w.2) c (i + 1) ?_
        rintro ⟨-, hseq⟩
        have : w.1 = i := by
          simp only [part_row] at hseq
          omega
        rw [this] at hw
        simp at hw

theorem keys_nodup_put_item (t : List TableItem) (it : TableItem) (h : keys_nodup t) :
    keys_nodup (put_item t it) := by
  unfold keys_nodup put_item at *
  rw [List.map_cons]
  refine List.nodup_cons.mpr ⟨?_, ?_⟩
  · intro hmem
    obtain ⟨j, hj, hkey⟩ := List.mem_map.mp hmem
    have hq := List.of_mem_filter hj
    simp only [Bool.not_eq_true', Bool.and_eq_false_iff, beq_eq_false_iff_ne] at hq
    simp only [item_key, Prod.mk.injEq] at hkey
    rcases hq with h1 | h2
    · exact h1 hkey.1
    · exact h2 hkey.2
  · exact List.Nodup.sublist ((List.filter_sublist t).map _) h

theorem keys_nodup_apply_parts (c : String) (e : Nat) :
    ∀ (ws : List (Int × String)) (t : List TableItem), keys_nodup t →
      keys_nodup (apply_parts t c e ws) := by
  intro ws
  induction ws with
  | nil => intro t h; exact h
  | cons w ws ih => intro t h; exact ih _ (keys_nodup_put_item _ _ h)

theorem keys_nodup_filter (t : List TableItem) (p : TableItem → Bool) (h : keys_nodup t) :
    keys_nodup (t.filter p) :=
  List.Nodup.sublist ((List.filter_sublist t).map _) h

theorem keys_nodup_sort_parts (t : List TableItem) (h : keys_nodup t) :
    keys_nodup (sort_parts t) :=
  ((sort_parts_perm t).map item_key).nodup_iff.mpr h

/-- C9: part writes are idempotent upserts keyed by (connection, sequence
number).  Writing the same index twice stores the second value in place of
the first; after any sequence of part writes the row at sequence i+1 holds
the last value written for index i; and the rows the END-step reassembles
have pairwise-distinct sequence keys (one fragment per index). -/
theorem c9_part_overwrite_last_write_wins :
    (∀ (t : List TableItem) (c : String) (e1 e2 : Nat) (i : Int) (p1 p2 : String),
        get_item (put_item (put_item t (part_row c e1 i p1)) (part_row c e2 i p2)) c (i + 1)
          = some (part_row c e2 i p2)) ∧
    (∀ (t : List TableItem) (c : String) (e : Nat) (ws : List (Int × String)) (i : Int),
        get_item (apply_parts t c e ws) c (i + 1) =
          match last_write ws i with
          | some p => some (part_row c e i p)
          | none => get_item t c (i + 1)) ∧
    (∀ (t : List TableItem) (c : String) (e : Nat) (ws : List (Int × String)),
        keys_nodup t →
        keys_nodup (sort_parts ((apply_parts t c e ws).filter (end_part_filter c)))) := by
  refine ⟨?_, ?_, ?_⟩
  · intro t c e1 e2 i p1 p2
    exact get_item_put_item_self _ _
  · intro t c e ws i
    exact get_item_apply_parts c e ws t i
  · intro t c e ws h
    exact keys_nodup_sort_parts _ (keys_nodup_filter _ _ (keys_nodup_apply_parts c e ws t h))

/-- Witness for C9: overwriting index 0 keeps only the second value, and a
write sequence with a duplicate index reassembles with distinct keys. -/
theorem c9_witness :
    get_item (put_item (put_item [] (part_row "c" 7 0 "first")) (part_row "c" 8 0 "second"))
        "c" (0 + 1) = some (part_row "c" 8 0 "second") ∧
    keys_nodup ([] : List TableItem) ∧
    keys_nodup (sort_parts ((apply_parts [] "c" 9 [(0, "a"), (1, "b"), (0, "z")]).filter
        (end_part_filter "c"))) :=
  ⟨c9_part_overwrite_last_write_wins.1 [] "c" 7 8 0 "first" "second",
   List.nodup_nil,
   c9_part_overwrite_last_write_wins.2.2 [] "c" 9 [(0, "a"), (1, "b"), (0, "z")] List.nodup_nil⟩
